import Mathlib

/-!
Verification of the URL-shortening service.

The repository ships an Express backend (`src/unnamed/part_000`) holding the
HTTP glue (health check, file upload to S3, credential retrieval from Secrets
Manager at startup) and a React frontend (`src/frontend/src/App.js`).  The
shortening core itself (code generator, link store, analytics counter,
resolver, catalog) is described by the specification but its source is not
part of the files at hand, so those components are modelled from the
specification; the startup sequence, the upload route and the frontend click
display are embedded from the source.
-/

namespace UrlShortener

/-- Modelled from the spec: a stored link, `{short_code, original_url, created_at}`
(§3 data model).  The shortening core that owns this record is missing from
the available sources. -/
structure Link where
  short_code : String
  original_url : String
  created_at : Nat
deriving DecidableEq, Repr

/-- Modelled from the spec: the Link Store, a durable mapping of short code to
original URL plus metadata (§4.2).  Represented as the sequence of links in
creation order. -/
structure LinkStore where
  links : List Link
deriving DecidableEq, Repr

/-- Modelled from the spec: whether the store already holds the given code. -/
def LinkStore.hasCode (s : LinkStore) (c : String) : Bool :=
  s.links.any (fun l => l.short_code == c)

/-- Modelled from the spec: `get(short_code) -> Link | NotFound` (§4.2). -/
def LinkStore.get (s : LinkStore) (c : String) : Option Link :=
  s.links.find? (fun l => l.short_code == c)

/-- Modelled from the spec: `put(short_code, original_url) -> Link | DuplicateCode`,
an atomic insert that fails when the code already exists, leaving the state
unchanged (§4.2).  The returned store is the state after the call; `none`
stands for the `DuplicateCode` outcome. -/
def LinkStore.put (s : LinkStore) (c url : String) (now : Nat) :
    LinkStore × Option Link :=
  if s.hasCode c then (s, none)
  else
    let l : Link := ⟨c, url, now⟩
    (⟨s.links ++ [l]⟩, some l)

/-- Modelled from the spec: the short codes currently issued, in creation order. -/
def LinkStore.codes (s : LinkStore) : List String :=
  s.links.map Link.short_code

/-- Modelled from the spec: the Analytics Counter, a per-code click counter
(§4.3).  Represented as an association list of `(short_code, clicks)`. -/
structure Analytics where
  counts : List (String × Nat)
deriving DecidableEq, Repr

/-- Modelled from the spec: upsert increment on the underlying association
list; when no record exists a fresh one with count 1 is appended. -/
def incCounts : List (String × Nat) → String → List (String × Nat)
  | [], c => [(c, 1)]
  | (k, n) :: rest, c =>
    if k == c then (k, n + 1) :: rest else (k, n) :: incCounts rest c

/-- Modelled from the spec: `get(short_code) -> count (0 if absent)` (§4.3). -/
def Analytics.get (a : Analytics) (c : String) : Nat :=
  match a.counts.find? (fun p => p.1 == c) with
  | some p => p.2
  | none => 0

/-- Modelled from the spec: the codes holding a click record. -/
def Analytics.codes (a : Analytics) : List String :=
  a.counts.map Prod.fst

/-- Modelled from the spec: `increment(short_code) -> new_count`, atomic
increment with upsert semantics (§4.3).  Returns the updated counter state
together with the new count. -/
def Analytics.increment (a : Analytics) (c : String) : Analytics × Nat :=
  let a' : Analytics := ⟨incCounts a.counts c⟩
  (a', a'.get c)

/-- Modelled from the spec: the aggregate analytics payload
`{total_links, total_clicks}` (§4.3). -/
structure AggregateStats where
  total_links : Nat
  total_clicks : Nat
deriving DecidableEq, Repr

/-- Modelled from the spec: `aggregate() -> {total_links, total_clicks}`:
total_clicks sums all counters, total_links counts the Link entities (§4.3). -/
def aggregate (s : LinkStore) (a : Analytics) : AggregateStats :=
  ⟨s.links.length, (a.counts.map Prod.snd).sum⟩

/-- Modelled from the spec: the error taxonomy of §7. -/
inductive Err where
  | invalidURL
  | duplicateCode
  | notFound
  | generationExhausted
deriving DecidableEq, Repr

/-- Modelled from the spec: locate the first scheme separator of an URL,
returning the characters before it and after it. -/
def findSchemeSep : List Char → Option (List Char × List Char)
  | ':' :: '/' :: '/' :: rest => some ([], rest)
  | ch :: rest =>
    match findSchemeSep rest with
    | some (pre, post) => some (ch :: pre, post)
    | none => none
  | [] => none

/-- Modelled from the spec: syntactic validity of an absolute URL, scheme and
host both required; empty or unparsable input is invalid (§4.1). -/
def isValidUrl (url : String) : Bool :=
  match findSchemeSep url.data with
  | some (scheme, rest) =>
    !scheme.isEmpty && !(rest.takeWhile (fun ch => ch != '/')).isEmpty
  | none => false

/-- Modelled from the spec: the bounded retry cap of the shorten operation
(§4.1 suggests 5 attempts). -/
def retryCap : Nat := 5

/-- Modelled from the spec: the retry loop of the shorten operation.  Each
candidate code is offered to the store; a `DuplicateCode` outcome is caught
and the next candidate is tried; an exhausted candidate list fails with
`GenerationExhausted` (§4.1, §7). -/
def shortenAttempts (s : LinkStore) (url : String) (now : Nat) :
    List String → Except Err (LinkStore × String)
  | [] => .error .generationExhausted
  | c :: rest =>
    match s.put c url now with
    | (s', some _) => .ok (s', c)
    | (_, none) => shortenAttempts s url now rest

/-- Modelled from the spec: the shorten operation: validate the URL, then try
at most `retryCap` candidate codes (§4.1).  `candidates` stands for the
stream of codes produced by the random code generator. -/
def shorten (s : LinkStore) (url : String) (now : Nat)
    (candidates : List String) : Except Err (LinkStore × String) :=
  if isValidUrl url then shortenAttempts s url now (candidates.take retryCap)
  else .error .invalidURL

/-- Modelled from the spec: `resolve(short_code) -> original_url | NotFound`,
incrementing the analytics counter synchronously on success (§4.4).  Returns
the outcome together with the store and counter states after the call. -/
def resolve (s : LinkStore) (a : Analytics) (c : String) :
    Except Err String × LinkStore × Analytics :=
  match s.get c with
  | none => (.error .notFound, s, a)
  | some l =>
    let r := a.increment c
    (.ok l.original_url, s, r.1)

/-- Modelled from the spec: iterated resolution of the same code, returning
the final analytics state. -/
def resolveN : Nat → LinkStore → Analytics → String → Analytics
  | 0, _, a, _ => a
  | n + 1, s, a, c => resolveN n s (resolve s a c).2.2 c

/-- Path separator used when the backend builds the relative short URL the
frontend turns into an absolute one. -/
def slash : String := "/"

/-- Modelled from the spec: the relative `short_url` the shorten endpoint
returns for a code (§6). -/
def shortUrlOf (c : String) : String := slash ++ c

/-- Modelled from the spec: the JSON body of a `POST /shorten` response,
either `{short_code, short_url}` or `{error}` (§6). -/
inductive ShortenBody where
  | created (short_code short_url : String)
  | errorBody (e : Err)
deriving DecidableEq, Repr

/-- Modelled from the spec: the `POST /shorten` endpoint: 201 with
`{short_code, short_url}` on success, 400 on an invalid URL, 5xx when code
generation is exhausted (§6, §7).  Returns status, body and store state. -/
def httpShorten (s : LinkStore) (now : Nat) (candidates : List String)
    (url : String) : Nat × ShortenBody × LinkStore :=
  match shorten s url now candidates with
  | .ok (s', c) => (201, .created c (shortUrlOf c), s')
  | .error .invalidURL => (400, .errorBody .invalidURL, s)
  | .error e => (500, .errorBody e, s)

/-- Modelled from the spec: the `GET /<short_code>` redirect endpoint: 302
with the original URL as Location, or a plain 404 when unknown (§6). -/
def httpRedirect (s : LinkStore) (a : Analytics) (c : String) :
    Nat × Option String × LinkStore × Analytics :=
  match resolve s a c with
  | (.ok url, s', a') => (302, some url, s', a')
  | (.error _, s', a') => (404, none, s', a')

/-- Modelled from the spec: one client-visible operation of the shortening
core, used to speak about arbitrary operation sequences. -/
inductive Op where
  | shortenOp (url : String) (now : Nat) (candidates : List String)
  | resolveOp (code : String)
deriving Repr

/-- Modelled from the spec: the state transition of one operation on the
pair of Link Store and Analytics Counter. -/
def applyOp (st : LinkStore × Analytics) : Op → LinkStore × Analytics
  | .shortenOp url now candidates =>
    match shorten st.1 url now candidates with
    | .ok (s', _) => (s', st.2)
    | .error _ => st
  | .resolveOp c =>
    let r := resolve st.1 st.2 c
    (r.2.1, r.2.2)

/-- Modelled from the spec: running a sequence of operations from a state. -/
def runOps (st : LinkStore × Analytics) (ops : List Op) : LinkStore × Analytics :=
  ops.foldl applyOp st

/-! Embeddings of the code present under `src/`. -/

/-- Placeholder string returned by the frontend click column. -/
def notAvailable : String := "N/A"

/-- Embedding of `getClickCount` (`src/frontend/src/App.js` lines 72-76): the
frontend shows this value in the Clicks column for every short code; the body
ignores its argument and returns the placeholder. -/
def getClickCount (shortCode : String) : String := notAvailable

/-- Database credentials as parsed from the secret string
(`src/unnamed/part_000` lines 45-52). -/
structure DbCredentials where
  host : String
  dbPort : Nat
  dbname : String
  username : String
  password : String
deriving DecidableEq, Repr

/-- The connection pool built from the credentials (`new Pool(...)`). -/
structure DbPool where
  creds : DbCredentials
deriving DecidableEq, Repr

/-- Message produced when `JSON.parse` of the secret string throws. -/
def parseFailureMsg : String := "Unexpected token in JSON"

/-- Embedding of `initializeDatabase` (`src/unnamed/part_000` lines 39-58):
fetch the secret from Secrets Manager, parse it, build the pool; any failure
of the fetch or the parse is rethrown.  `fetchSecret` is the outcome of the
Secrets Manager call, `parseSecret` the outcome of `JSON.parse` on a secret
string. -/
def initializeDatabase (fetchSecret : Except String String)
    (parseSecret : String → Option DbCredentials) : Except String DbPool :=
  match fetchSecret with
  | .error e => .error e
  | .ok secretString =>
    match parseSecret secretString with
    | none => .error parseFailureMsg
    | some creds => .ok ⟨creds⟩

/-- Observable outcome of the startup sequence. -/
inductive StartupOutcome where
  | listening (onPort : Nat)
  | exited (exitCode : Nat)
deriving DecidableEq, Repr

/-- Embedding of the startup chain (`src/unnamed/part_000` lines 89-96):
`initializeDatabase().then(() => app.listen(port)).catch(err => process.exit(1))`. -/
def startServer (fetchSecret : Except String String)
    (parseSecret : String → Option DbCredentials) (port : Nat) : StartupOutcome :=
  match initializeDatabase fetchSecret parseSecret with
  | .ok _ => .listening port
  | .error _ => .exited 1

/-- An uploaded file as multer hands it to the route handler. -/
structure UploadedFile where
  originalname : String
  buffer : List Nat
  mimetype : String
deriving DecidableEq, Repr

/-- A `PutObjectCommand` sent to S3. -/
structure S3Put where
  bucket : String
  key : String
  body : List Nat
  contentType : String
deriving DecidableEq, Repr

/-- Response body of the upload route. -/
inductive UploadBody where
  | errorMsg (msg : String)
  | uploaded (fileKey msg : String)
deriving DecidableEq, Repr

/-- Error body text of the upload route when no file is attached. -/
def noFileMsg : String := "No file uploaded"

/-- Success message of the upload route. -/
def uploadOkMsg : String := "Upload successful"

/-- Error body text when the S3 send throws. -/
def uploadFailMsg : String := "File upload failed"

/-- Bucket name hard-coded in the upload route. -/
def bucketName : String := "YOUR_BUCKET_NAME"

/-- Key directory of uploaded objects. -/
def uploadsDir : String := "uploads/"

/-- Separator between the uuid and the original file name in the object key. -/
def dash : String := "-"

/-- Embedding of `app.post('/upload')` (`src/unnamed/part_000` lines 66-86):
with no file the route answers 400 with an error body and touches nothing;
otherwise it sends one `PutObjectCommand` and answers 200 or, when the send
throws, 500.  `uuid` is the value of `uuidv4()`, `s3Ok` whether the send
succeeds, `s3` the sequence of S3 calls issued so far. -/
def uploadRoute (file : Option UploadedFile) (uuid : String) (s3Ok : Bool)
    (s3 : List S3Put) : Nat × UploadBody × List S3Put :=
  match file with
  | none => (400, .errorMsg noFileMsg, s3)
  | some f =>
    let fileKey := uploadsDir ++ uuid ++ dash ++ f.originalname
    let p : S3Put := ⟨bucketName, fileKey, f.buffer, f.mimetype⟩
    if s3Ok then (200, .uploaded fileKey uploadOkMsg, s3 ++ [p])
    else (500, .errorMsg uploadFailMsg, s3 ++ [p])

/-- Concrete sample URL used by witnesses. -/
def exampleUrl : String := "https://example.com/a/b"

/-- Concrete sample short code used by witnesses. -/
def codeA : String := "Ab3dK9"

/-- Second concrete sample short code. -/
def codeB : String := "Xy2wQ8"

/-- Concrete invalid input used by witnesses. -/
def badUrl : String := "not a url"

/-- Textual zero, what the spec expects the click column to show for a
never-clicked link. -/
def zeroText : String := "0"

/-- Concrete Secrets Manager failure message used by witnesses. -/
def secretsErrMsg : String := "AccessDeniedException"

/-! Helper lemmas. -/

theorem find_append_single (l : List Link) (c url : String) (t : Nat)
    (h : l.any (fun x => x.short_code == c) = false) :
    (l ++ [(⟨c, url, t⟩ : Link)]).find? (fun x => x.short_code == c) =
      some ⟨c, url, t⟩ := by
  induction l with
  | nil => simp [List.find?]
  | cons x xs ih =>
    simp only [List.any_cons, Bool.or_eq_false_iff] at h
    simp [List.find?, h.1, ih h.2]

theorem hasCode_false_not_mem (s : LinkStore) (c : String)
    (h : s.hasCode c = false) : c ∉ s.codes := by
  intro hmem
  simp only [LinkStore.codes, List.mem_map] at hmem
  obtain ⟨l, hl, hlc⟩ := hmem
  simp only [LinkStore.hasCode, List.any_eq_false] at h
  exact h l hl (by simp [hlc])

theorem shortenAttempts_ok (s : LinkStore) (url : String) (now : Nat)
    (l : List String) (s' : LinkStore) (c : String)
    (h : shortenAttempts s url now l = .ok (s', c)) :
    s.hasCode c = false ∧ s' = ⟨s.links ++ [⟨c, url, now⟩]⟩ := by
  induction l with
  | nil => simp [shortenAttempts] at h
  | cons d rest ih =>
    by_cases hd : s.hasCode d
    · simp only [shortenAttempts, LinkStore.put, hd, if_true] at h
      exact ih h
    · simp [shortenAttempts, LinkStore.put, hd] at h
      obtain ⟨h1, h2⟩ := h
      subst h2
      exact ⟨Bool.eq_false_iff.mpr hd, h1.symm⟩

theorem put_get_new (s : LinkStore) (c url : String) (t : Nat)
    (h : s.hasCode c = false) :
    LinkStore.get ⟨s.links ++ [⟨c, url, t⟩]⟩ c = some ⟨c, url, t⟩ := by
  simp only [LinkStore.get]
  exact find_append_single s.links c url t (by simpa [LinkStore.hasCode] using h)

/-! Claim theorems. -/

/-- Claim C1: every syntactically valid absolute URL accepted by the shorten
operation gets a short code that the resolve operation maps back to exactly
that URL. -/
theorem shorten_resolve_roundtrip (s s' : LinkStore) (a : Analytics)
    (url c : String) (now : Nat) (candidates : List String)
    (h : shorten s url now candidates = .ok (s', c)) :
    (resolve s' a c).1 = .ok url := by
  by_cases hv : isValidUrl url
  · simp only [shorten, hv, if_true] at h
    obtain ⟨hc, hs⟩ := shortenAttempts_ok s url now (candidates.take retryCap) s' c h
    subst hs
    simp [resolve, put_get_new s c url now hc]
  · simp [shorten, hv] at h

/-- Claim C1 witness. -/
theorem shorten_resolve_roundtrip_witness :
    (resolve ⟨[⟨codeA, exampleUrl, 0⟩]⟩ ⟨[]⟩ codeA).1 = .ok exampleUrl :=
  shorten_resolve_roundtrip ⟨[]⟩ ⟨[⟨codeA, exampleUrl, 0⟩]⟩ ⟨[]⟩ exampleUrl
    codeA 0 [codeA] rfl

/-- Claim C2: `put` is an atomic insert: on an already-present code it fails
(the `DuplicateCode` outcome, modelled by `none`) leaving the store unchanged;
it preserves distinctness of the issued codes; and a successful insert makes
any later insert of the same code fail, so at most one insert of a given code
ever succeeds. -/
theorem put_unique (s : LinkStore) (c url : String) (t : Nat) :
    (s.hasCode c = true → s.put c url t = (s, none)) ∧
    (s.codes.Nodup → ((s.put c url t).1).codes.Nodup) ∧
    (∀ s' l, s.put c url t = (s', some l) → s'.hasCode c = true) := by
  refine ⟨fun h => by simp [LinkStore.put, h], fun hnd => ?_, fun s' l h => ?_⟩
  · by_cases hc : s.hasCode c
    · simpa [LinkStore.put, hc] using hnd
    · have hmem := hasCode_false_not_mem s c (Bool.eq_false_iff.mpr hc)
      simp only [LinkStore.codes] at hmem
      simp [LinkStore.put, hc, LinkStore.codes, List.nodup_append]
      refine ⟨by simpa [LinkStore.codes] using hnd, fun x hx hxc => hmem ?_⟩
      exact List.mem_map.mpr ⟨x, hx, hxc⟩
  · by_cases hc : s.hasCode c
    · simp [LinkStore.put, hc] at h
    · simp [LinkStore.put, hc] at h
      obtain ⟨h1, _⟩ := h
      subst h1
      simp [LinkStore.hasCode]

/-- Claim C2 witness. -/
theorem put_unique_witness :
    LinkStore.put ⟨[⟨codeA, exampleUrl, 0⟩]⟩ codeA exampleUrl 3 =
      (⟨[⟨codeA, exampleUrl, 0⟩]⟩, none) ∧
    ((LinkStore.put ⟨[⟨codeA, exampleUrl, 0⟩]⟩ codeB exampleUrl 3).1).codes.Nodup :=
  ⟨(put_unique ⟨[⟨codeA, exampleUrl, 0⟩]⟩ codeA exampleUrl 3).1 rfl,
   (put_unique ⟨[⟨codeA, exampleUrl, 0⟩]⟩ codeB exampleUrl 3).2.1 (by decide)⟩

/-- Claim C4: resolving an unknown code yields `NotFound` (a 404 at the
redirect endpoint) and changes neither the Link Store nor the Analytics
Counter. -/
theorem resolve_unknown (s : LinkStore) (a : Analytics) (c : String)
    (h : s.get c = none) :
    resolve s a c = (.error .notFound, s, a) ∧
    httpRedirect s a c = (404, none, s, a) := by
  constructor
  · simp [resolve, h]
  · simp [httpRedirect, resolve, h]

/-- Claim C4 witness. -/
theorem resolve_unknown_witness :
    resolve ⟨[]⟩ ⟨[]⟩ codeA = (.error .notFound, ⟨[]⟩, ⟨[]⟩) ∧
    httpRedirect ⟨[]⟩ ⟨[]⟩ codeA = (404, none, ⟨[]⟩, ⟨[]⟩) :=
  resolve_unknown ⟨[]⟩ ⟨[]⟩ codeA rfl

theorem incCounts_get (l : List (String × Nat)) (c : String) :
    Analytics.get ⟨incCounts l c⟩ c = Analytics.get ⟨l⟩ c + 1 := by
  induction l with
  | nil => simp [incCounts, Analytics.get, List.find?]
  | cons p rest ih =>
    obtain ⟨k, n⟩ := p
    by_cases hk : k == c
    · simp [incCounts, hk, Analytics.get, List.find?]
    · simp only [incCounts, hk, if_false]
      simpa [Analytics.get, List.find?, hk] using ih

theorem increment_get_self (a : Analytics) (c : String) :
    (a.increment c).1.get c = a.get c + 1 := by
  simpa [Analytics.increment] using incCounts_get a.counts c

theorem resolveN_get (s : LinkStore) (c : String)
    (hs : (s.get c).isSome = true) (n : Nat) :
    ∀ a : Analytics, (resolveN n s a c).get c = a.get c + n := by
  induction n with
  | zero => intro a; simp [resolveN]
  | succ m ih =>
    intro a
    obtain ⟨l, hl⟩ := Option.isSome_iff_exists.mp hs
    have hres : (resolve s a c).2.2 = (a.increment c).1 := by
      simp [resolve, hl]
    calc (resolveN (m + 1) s a c).get c
        = (resolveN m s (resolve s a c).2.2 c).get c := rfl
      _ = (resolve s a c).2.2.get c + m := ih _
      _ = a.get c + 1 + m := by rw [hres, increment_get_self]
      _ = a.get c + (m + 1) := by omega

/-- Claim C3: a successful resolution increments the resolved code's click
count by exactly 1, with upsert semantics (a missing record is created with
count 1, since an absent code reads as count 0); hence n successful
resolutions starting from an absent record leave the count at exactly n. -/
theorem click_count (s : LinkStore) (a : Analytics) (c : String) (n : Nat)
    (h : (s.get c).isSome = true) :
    (resolve s a c).2.2.get c = a.get c + 1 ∧
    (a.get c = 0 → (resolveN n s a c).get c = n) := by
  obtain ⟨l, hl⟩ := Option.isSome_iff_exists.mp h
  constructor
  · simp [resolve, hl, increment_get_self]
  · intro h0
    rw [resolveN_get s c h n a, h0]
    exact Nat.zero_add n

/-- Claim C3 witness. -/
theorem click_count_witness :
    (resolveN 2 ⟨[⟨codeA, exampleUrl, 0⟩]⟩ ⟨[]⟩ codeA).get codeA = 2 :=
  (click_count ⟨[⟨codeA, exampleUrl, 0⟩]⟩ ⟨[]⟩ codeA 2 rfl).2 rfl

theorem shortenAttempts_ok_of_fresh (s : LinkStore) (url : String) (now : Nat)
    (l : List String) (hf : ∃ c ∈ l, s.hasCode c = false) :
    ∃ s' c, shortenAttempts s url now l = .ok (s', c) := by
  induction l with
  | nil => simp at hf
  | cons d rest ih =>
    by_cases hd : s.hasCode d
    · simp only [shortenAttempts, LinkStore.put, hd, if_true]
      obtain ⟨c, hc, hcf⟩ := hf
      rcases List.mem_cons.mp hc with hcd | hcr
      · subst hcd; rw [hcf] at hd; exact absurd hd (by simp)
      · exact ih ⟨c, hcr, hcf⟩
    · refine ⟨⟨s.links ++ [⟨d, url, now⟩]⟩, d, ?_⟩
      simp [shortenAttempts, LinkStore.put, hd]

/-- Claim C5: the `POST /shorten` endpoint answers 400 with an error body on
every empty, invalid or unparsable URL, and 201 with `{short_code, short_url}`
on every syntactically valid absolute URL for which the bounded generation
loop finds a fresh candidate. -/
theorem httpShorten_contract (s : LinkStore) (now : Nat)
    (candidates : List String) (url : String) :
    (isValidUrl url = false →
      httpShorten s now candidates url = (400, .errorBody .invalidURL, s)) ∧
    (isValidUrl url = true →
      (∃ c ∈ candidates.take retryCap, s.hasCode c = false) →
      ∃ s' c, httpShorten s now candidates url =
        (201, .created c (shortUrlOf c), s')) := by
  constructor
  · intro h
    simp [httpShorten, shorten, h]
  · intro hv hf
    obtain ⟨s', c, hok⟩ :=
      shortenAttempts_ok_of_fresh s url now (candidates.take retryCap) hf
    refine ⟨s', c, ?_⟩
    simp [httpShorten, shorten, hv, hok]

/-- Claim C5 witness. -/
theorem httpShorten_contract_witness :
    httpShorten ⟨[]⟩ 0 [] badUrl = (400, .errorBody .invalidURL, ⟨[]⟩) ∧
    ∃ s' c, httpShorten ⟨[]⟩ 0 [codeA] exampleUrl =
      (201, .created c (shortUrlOf c), s') :=
  ⟨(httpShorten_contract ⟨[]⟩ 0 [] badUrl).1 rfl,
   (httpShorten_contract ⟨[]⟩ 0 [codeA] exampleUrl).2 rfl
     ⟨codeA, by simp [retryCap], rfl⟩⟩

theorem shortenAttempts_error (s : LinkStore) (url : String) (now : Nat)
    (l : List String) (e : Err)
    (h : shortenAttempts s url now l = .error e) : e = .generationExhausted := by
  induction l with
  | nil => simpa [shortenAttempts] using h.symm
  | cons d rest ih =>
    by_cases hd : s.hasCode d
    · simp only [shortenAttempts, LinkStore.put, hd, if_true] at h
      exact ih h
    · simp [shortenAttempts, LinkStore.put, hd] at h

theorem shortenAttempts_exhausted (s : LinkStore) (url : String) (now : Nat)
    (l : List String) (h : ∀ c ∈ l, s.hasCode c = true) :
    shortenAttempts s url now l = .error .generationExhausted := by
  induction l with
  | nil => simp [shortenAttempts]
  | cons d rest ih =>
    have hd : s.hasCode d = true := h d (by simp)
    simp only [shortenAttempts, LinkStore.put, hd, if_true]
    exact ih fun c hc => h c (List.mem_cons_of_mem d hc)

/-- Claim C6: the shorten operation never surfaces `DuplicateCode`: a
collision is caught and the next candidate is tried, a colliding first
candidate followed by a fresh one succeeds with the fresh one, the bounded
retry loop fails with `GenerationExhausted` when every candidate within the
cap collides, and every error the operation does produce reaches the HTTP
boundary unchanged. -/
theorem shorten_retry_contract (s : LinkStore) (url : String) (now : Nat)
    (candidates : List String) :
    (∀ e, shorten s url now candidates = .error e → e ≠ .duplicateCode) ∧
    (isValidUrl url = true →
      (∀ c ∈ candidates.take retryCap, s.hasCode c = true) →
      shorten s url now candidates = .error .generationExhausted) ∧
    (∀ e, shorten s url now candidates = .error e →
      (httpShorten s now candidates url).2.1 = .errorBody e) ∧
    (∀ c₁ c₂ rest, candidates = c₁ :: c₂ :: rest → isValidUrl url = true →
      s.hasCode c₁ = true → s.hasCode c₂ = false →
      ∃ s', shorten s url now candidates = .ok (s', c₂)) := by
  refine ⟨fun e he => ?_, fun hv hall => ?_, fun e he => ?_,
    fun c₁ c₂ rest hc hv h₁ h₂ => ?_⟩
  · by_cases hv : isValidUrl url
    · simp only [shorten, hv, if_true] at he
      rw [shortenAttempts_error s url now _ e he]
      simp
    · simp only [shorten, hv, if_false] at he
      simp at he
      rw [← he]
      simp
  · simp only [shorten, hv, if_true]
    exact shortenAttempts_exhausted s url now _ hall
  · simp only [httpShorten, he]
    cases e <;> simp
  · subst hc
    simp only [shorten, hv, if_true, retryCap, List.take]
    simp only [shortenAttempts, LinkStore.put, h₁, if_true]
    refine ⟨⟨s.links ++ [⟨c₂, url, now⟩]⟩, ?_⟩
    simp [shortenAttempts, LinkStore.put, h₂]

/-- Claim C6 witness. -/
theorem shorten_retry_contract_witness :
    shorten ⟨[⟨codeA, exampleUrl, 0⟩]⟩ exampleUrl 1 [codeA] =
      .error .generationExhausted ∧
    ∃ s', shorten ⟨[⟨codeA, exampleUrl, 0⟩]⟩ exampleUrl 1 [codeA, codeB] =
      .ok (s', codeB) :=
  ⟨(shorten_retry_contract ⟨[⟨codeA, exampleUrl, 0⟩]⟩ exampleUrl 1 [codeA]).2.1
      rfl (by decide),
   (shorten_retry_contract ⟨[⟨codeA, exampleUrl, 0⟩]⟩ exampleUrl 1
      [codeA, codeB]).2.2.2 codeA codeB [] rfl rfl rfl rfl⟩

theorem sum_incCounts (l : List (String × Nat)) (c : String) :
    ((incCounts l c).map Prod.snd).sum = (l.map Prod.snd).sum + 1 := by
  induction l with
  | nil => simp [incCounts]
  | cons p rest ih =>
    obtain ⟨k, n⟩ := p
    by_cases hk : k == c
    · simp only [incCounts, hk, if_true, List.map_cons, List.sum_cons]
      omega
    · simp [incCounts, hk, List.map_cons, List.sum_cons, ih]
      omega

theorem sum_map_get (l : List (String × Nat))
    (h : (l.map Prod.fst).Nodup) :
    ((l.map Prod.fst).map (fun c => Analytics.get ⟨l⟩ c)).sum =
      (l.map Prod.snd).sum := by
  induction l with
  | nil => simp
  | cons p rest ih =>
    obtain ⟨k, n⟩ := p
    simp only [List.map_cons, List.nodup_cons] at h
    obtain ⟨hk, hrest⟩ := h
    have hhead : Analytics.get ⟨(k, n) :: rest⟩ k = n := by
      simp [Analytics.get, List.find?]
    have htail : (rest.map Prod.fst).map
          (fun c => Analytics.get ⟨(k, n) :: rest⟩ c) =
        (rest.map Prod.fst).map (fun c => Analytics.get ⟨rest⟩ c) := by
      apply List.map_congr_left
      intro x hx
      have hxk : (k == x) = false := by
        refine beq_eq_false_iff_ne.mpr fun hkx => ?_
        exact hk (hkx ▸ hx)
      simp [Analytics.get, List.find?, hxk]
    simp only [List.map_cons, List.sum_cons, hhead, htail, ih hrest]

theorem shorten_ok_append (s : LinkStore) (url : String) (now : Nat)
    (candidates : List String) (s' : LinkStore) (c : String)
    (h : shorten s url now candidates = .ok (s', c)) :
    s' = ⟨s.links ++ [⟨c, url, now⟩]⟩ := by
  by_cases hv : isValidUrl url
  · simp only [shorten, hv, if_true] at h
    exact (shortenAttempts_ok s url now _ s' c h).2
  · simp [shorten, hv] at h

theorem applyOp_le (st : LinkStore × Analytics) (op : Op) :
    st.1.links.length ≤ (applyOp st op).1.links.length ∧
    (st.2.counts.map Prod.snd).sum ≤
      ((applyOp st op).2.counts.map Prod.snd).sum := by
  cases op with
  | shortenOp url now candidates =>
    cases hres : shorten st.1 url now candidates with
    | ok pr =>
      obtain ⟨s', c⟩ := pr
      have hs := shorten_ok_append st.1 url now candidates s' c hres
      subst hs
      simp [applyOp, hres]
    | error e => simp [applyOp, hres]
  | resolveOp c =>
    cases hg : st.1.get c with
    | none => simp [applyOp, resolve, hg]
    | some l =>
      simp [applyOp, resolve, hg, Analytics.increment, sum_incCounts]

theorem runOps_le (st : LinkStore × Analytics) (ops : List Op) :
    st.1.links.length ≤ (runOps st ops).1.links.length ∧
    (st.2.counts.map Prod.snd).sum ≤
      ((runOps st ops).2.counts.map Prod.snd).sum := by
  induction ops generalizing st with
  | nil => simp [runOps]
  | cons op rest ih =>
    have h1 := applyOp_le st op
    have h2 := ih (applyOp st op)
    simp only [runOps, List.foldl_cons] at h2 ⊢
    exact ⟨le_trans h1.1 h2.1, le_trans h1.2 h2.2⟩

/-- Claim C7: the aggregate's total_clicks equals the sum of the individual
per-code counters whenever the counter keys are distinct, and both
total_links and total_clicks are non-decreasing (hence, being naturals,
never negative) along every sequence of shorten and resolve operations. -/
theorem aggregate_consistency (s : LinkStore) (a : Analytics) (ops : List Op) :
    (a.codes.Nodup → (aggregate s a).total_clicks = (a.codes.map a.get).sum) ∧
    (aggregate s a).total_links ≤
      (aggregate (runOps (s, a) ops).1 (runOps (s, a) ops).2).total_links ∧
    (aggregate s a).total_clicks ≤
      (aggregate (runOps (s, a) ops).1 (runOps (s, a) ops).2).total_clicks := by
  refine ⟨fun hnd => ?_, ?_, ?_⟩
  · simp only [aggregate]
    exact (sum_map_get a.counts (by simpa [Analytics.codes] using hnd)).symm
  · simpa [aggregate] using (runOps_le (s, a) ops).1
  · simpa [aggregate] using (runOps_le (s, a) ops).2

/-- Claim C7 witness. -/
theorem aggregate_consistency_witness :
    (aggregate ⟨[]⟩ ⟨[(codeA, 2), (codeB, 3)]⟩).total_clicks =
      ((Analytics.codes ⟨[(codeA, 2), (codeB, 3)]⟩).map
        (Analytics.get ⟨[(codeA, 2), (codeB, 3)]⟩)).sum :=
  (aggregate_consistency ⟨[]⟩ ⟨[(codeA, 2), (codeB, 3)]⟩ []).1 (by decide)

/-- Claim C8: the frontend click column (`getClickCount`) does not report 0
for a link without analytics record; it yields the non-numeric placeholder
for every short code. -/
theorem getClickCount_placeholder :
    ∀ c : String, getClickCount c = notAvailable ∧ getClickCount c ≠ zeroText := by
  intro c
  have hne : notAvailable ≠ zeroText := by decide
  exact ⟨rfl, hne⟩

/-- Claim C9: the server listens only after the storage credentials were
obtained and the pool was built, and on any credential-retrieval or
database-initialization failure it never listens and exits with the non-zero
code 1. -/
theorem startup_order (fetchSecret : Except String String)
    (parseSecret : String → Option DbCredentials) (port : Nat) :
    (∀ p, startServer fetchSecret parseSecret port = .listening p →
      p = port ∧ ∃ pool, initializeDatabase fetchSecret parseSecret = .ok pool) ∧
    (∀ e, initializeDatabase fetchSecret parseSecret = .error e →
      startServer fetchSecret parseSecret port = .exited 1 ∧ (1 : Nat) ≠ 0) := by
  constructor
  · intro p hp
    cases hinit : initializeDatabase fetchSecret parseSecret with
    | ok pool =>
      simp only [startServer, hinit, StartupOutcome.listening.injEq] at hp
      exact ⟨hp.symm, pool, rfl⟩
    | error e => simp [startServer, hinit] at hp
  · intro e he
    exact ⟨by simp [startServer, he], by simp⟩

/-- Claim C9 witness. -/
theorem startup_order_witness :
    startServer (.error secretsErrMsg) (fun _ => none) 5001 = .exited 1 ∧
    (1 : Nat) ≠ 0 :=
  (startup_order (.error secretsErrMsg) (fun _ => none) 5001).2 secretsErrMsg rfl

/-- Claim C10: `POST /upload` without a file answers 400 with the
`No file uploaded` error body, issues no S3 call and changes nothing else. -/
theorem upload_no_file (uuid : String) (s3Ok : Bool) (s3 : List S3Put) :
    uploadRoute none uuid s3Ok s3 = (400, .errorMsg noFileMsg, s3) := rfl
